import Mathlib

/-!
Shallow embedding of the ML-OPS repository's dataset/model registry core
(`src/app/services/dataset_service.py`, `src/app/services/model_service.py`,
with the DVC / MinIO / ClearML adapters abstracted as oracles), together
with theorems settling the specification claims.

Python dictionaries are modelled as insertion-ordered association lists
(`Dict α`): `dget` is `d.get(k)`, `dset` is `d[k] = v` (update in place if
the key is present, append otherwise), `ddel` is `del d[k]`, and `dupdate`
is `d.update(other)`.  The filesystem is modelled as a set of existing
paths (`Fs`) for the model registry and as a path → bytes map for the
dataset registry.  External subprocess / SDK calls are oracle fields of an
environment record, one per call site, reflecting exactly the
success/failure shapes the adapters can return.
-/

/-- Python dict as insertion-ordered association list. -/
abbrev Dict (α : Type) := List (String × α)

/-- `d.get(k)` — first binding of `k`, if any. -/
def dget {α : Type} : Dict α → String → Option α
  | [], _ => none
  | (k, v) :: rest, k' => if k = k' then some v else dget rest k'

/-- `d[k] = v` — replace in place if present, else append (Python dict insertion order). -/
def dset {α : Type} : Dict α → String → α → Dict α
  | [], k, v => [(k, v)]
  | (k', v') :: rest, k, v =>
    if k' = k then (k, v) :: rest else (k', v') :: dset rest k v

/-- `del d[k]` — drop the first binding of `k`. -/
def ddel {α : Type} : Dict α → String → Dict α
  | [], _ => []
  | (k', v') :: rest, k => if k' = k then rest else (k', v') :: ddel rest k

/-- `d.update(other)` — fold `other`'s bindings into `d` left to right. -/
def dupdate {α : Type} (d other : Dict α) : Dict α :=
  other.foldl (fun acc kv => dset acc kv.1 kv.2) d

/-- Filesystem as a set of existing paths. -/
abbrev Fs := List String

/-- Create or overwrite a file (existence set). -/
def fsAdd (fs : Fs) (p : String) : Fs :=
  if p ∈ fs then fs else fs ++ [p]

/-- `os.remove` — drop a path. -/
def fsRemove (fs : Fs) (p : String) : Fs :=
  fs.filter (fun q => q ≠ p)

/-- Python float values as the code distinguishes them: NaN, ±infinity, or a finite value. -/
inductive PyFloat where
  | nan : PyFloat
  | inf : PyFloat
  | ninf : PyFloat
  | fin : Rat → PyFloat
deriving DecidableEq, Repr

/-- `math.isnan`. -/
def PyFloat.isnan : PyFloat → Bool
  | .nan => true
  | _ => false

/-- `math.isinf` (true for both infinities). -/
def PyFloat.isinf : PyFloat → Bool
  | .inf => true
  | .ninf => true
  | _ => false

/-- A float that is neither NaN nor infinite. -/
def PyFloat.isFinite (f : PyFloat) : Bool :=
  !f.isnan && !f.isinf

/-- The distinct `raise ValueError(...)` sites of the two services, classified by the
spec's error taxonomy (not-found, invalid-input, unavailable, ...). -/
inductive PyErr where
  | notFound : PyErr
  | invalidInput : PyErr
  | notRetrievable : PyErr
  | invalidFormat : PyErr
  | parseFailure : PyErr
  | notLoadable : PyErr
  | minioUploadError : PyErr
deriving DecidableEq, Repr

/-- A parsed rectangular table (`pandas.DataFrame`): a column count and the data rows. -/
structure Table where
  ncols : Nat
  rows : List (List Rat)
deriving DecidableEq, Repr

/-- `settings.datasets_dir` default. -/
def datasets_dir : String := "data"

/-- `settings.models_dir` default. -/
def models_dir : String := "models"

/-- One entry of `DatasetService.datasets` (src/app/services/dataset_service.py, upload_dataset). -/
structure DatasetRecord where
  dataset_id : String
  file_name : String
  filepath : String
  format : String
  size : Nat
  created_at : Nat
  dvc_version : Option String
deriving DecidableEq, Repr

/-- The observable state of a `DatasetService` instance: the in-memory map, the
content of `datasets_metadata.json` (`none` = file absent), and the dataset files
on disk (path → byte content). -/
structure DatasetServiceState where
  datasets : Dict DatasetRecord
  metadataFile : Option (Dict DatasetRecord)
  files : Dict (List Nat)
deriving DecidableEq, Repr

/-- Oracle results for the external calls made by `DatasetService`:
`DVCService.add_dataset` (a version token or `None`), `DVCService.push_dataset`
and `DVCService.pull_dataset` (booleans, errors swallowed inside the adapter),
`datetime.now()`, and the pandas parse of a file (`none` = pandas raised). -/
structure DsEnv where
  dvcVersion : Option String
  pushOk : Bool
  pullOk : Bool
  now : Nat
  parse : String → String → Option Table
deriving Inhabited

/-- `DatasetService._save_metadata_to_file`: full rewrite of the metadata file
from the in-memory map. -/
def DatasetService.save_metadata_to_file (st : DatasetServiceState) : DatasetServiceState :=
  { st with metadataFile := some st.datasets }

/-- `DatasetService.upload_dataset`: write the file, snapshot and push it via DVC
(the push result is discarded), store the record, persist metadata, return the id. -/
def DatasetService.upload_dataset (env : DsEnv) (st : DatasetServiceState)
    (dataset_id : String) (file_name : String) (file_content : List Nat)
    (format : String) : DatasetServiceState × String :=
  let filepath := datasets_dir ++ "/" ++ dataset_id ++ "." ++ format
  let st1 := { st with files := dset st.files filepath file_content }
  let file_size := file_content.length
  let dvc_version := env.dvcVersion
  let record : DatasetRecord :=
    { dataset_id := dataset_id
      file_name := file_name
      filepath := filepath
      format := format
      size := file_size
      created_at := env.now
      dvc_version := dvc_version }
  let st2 := { st1 with datasets := dset st1.datasets dataset_id record }
  let st3 := DatasetService.save_metadata_to_file st2
  (st3, dataset_id)

/-- `DatasetService.get_dataset`. -/
def DatasetService.get_dataset (st : DatasetServiceState) (dataset_id : String) :
    Option DatasetRecord :=
  dget st.datasets dataset_id

/-- `DatasetService.load_dataset`: look up the record, pull the file via DVC if it
is missing locally, parse it by format, require at least two columns, and split
into all-but-last-column features and last-column target. -/
def DatasetService.load_dataset (env : DsEnv) (st : DatasetServiceState)
    (dataset_id : String) : Except PyErr (List (List Rat) × List Rat) :=
  match dget st.datasets dataset_id with
  | none => .error .notFound
  | some info =>
    if (dget st.files info.filepath).isNone ∧ ¬ env.pullOk then
      .error .notRetrievable
    else if info.format ≠ "csv" ∧ info.format ≠ "json" then
      .error .invalidFormat
    else
      match env.parse info.format info.filepath with
      | none => .error .parseFailure
      | some df =>
        if df.ncols < 2 then .error .invalidInput
        else
          let X := df.rows.map (fun r => r.take (df.ncols - 1))
          let y := df.rows.map (fun r => r.getD (df.ncols - 1) 0)
          .ok (X, y)

/-- `DatasetService.delete_dataset`: remove the backing file and its `.dvc` sidecar,
drop the record, persist metadata; `false` when the id is unknown. -/
def DatasetService.delete_dataset (st : DatasetServiceState) (dataset_id : String) :
    DatasetServiceState × Bool :=
  match dget st.datasets dataset_id with
  | none => (st, false)
  | some info =>
    let st1 := { st with files := ddel st.files info.filepath }
    let st2 := { st1 with files := ddel st1.files (info.filepath ++ ".dvc") }
    let st3 := { st2 with datasets := ddel st2.datasets dataset_id }
    let st4 := DatasetService.save_metadata_to_file st3
    (st4, true)

/-- One entry of `ModelService.models` (src/app/services/model_service.py, train_model). -/
structure ModelRecord where
  model_id : String
  model_type : String
  dataset_id : String
  hyperparameters : Dict String
  created_at : Nat
  status : String
  model_path : String
  clearml_model_id : Option String
  metrics : Option (Dict PyFloat)
deriving DecidableEq, Repr

/-- The observable state of a `ModelService` instance: the in-memory map, the
content of `models_metadata.json` (`none` = file absent), and the set of model
artifact files on disk. -/
structure ModelServiceState where
  models : Dict ModelRecord
  metadataFile : Option (Dict ModelRecord)
  artifactFiles : Fs
deriving DecidableEq, Repr

/-- Oracle results for the external calls made by `ModelService`:
`ClearMLService.save_model` (a ClearML model id or `None`, all errors swallowed),
whether the MinIO client was constructed, whether the MinIO `put_object` call
succeeds, `ClearMLService.load_model` (a downloaded path or `None`), the
estimator's `train` metrics as a function of the training data, the loaded
estimator's `predict` as a function of the artifact path, and `datetime.now()`. -/
structure MlEnv where
  clearmlSaveModel : Option String
  minioClientPresent : Bool
  minioUploadOk : Bool
  clearmlLoadModel : String → String → Option String
  trainMetrics : List (List Rat) → List Rat → Dict (Option PyFloat)
  loadedPredict : String → List (List Rat) → List Rat
  now : Nat

/-- `ModelService.get_available_model_types`. -/
def ModelService.get_available_model_types : List String :=
  ["linear", "random_forest"]

/-- The metric-filter loop of `ModelService.train_model`: keep a metric iff its
value is neither `None` nor NaN nor infinite, preserving order and values. -/
def cleanMetrics : Dict (Option PyFloat) → Dict PyFloat
  | [] => []
  | (_, none) :: rest => cleanMetrics rest
  | (k, some v) :: rest =>
    if v.isnan || v.isinf then cleanMetrics rest else (k, v) :: cleanMetrics rest

/-- `ModelService._save_model_metadata`: serialize either the one given model or
all of them, merge into the current content of the metadata file (existing file
entries for other ids are kept), and rewrite the file. -/
def ModelService.save_model_metadata (st : ModelServiceState) (model_id : Option String) :
    ModelServiceState :=
  let data := match model_id with
    | none => st.models
    | some mid => st.models.filter (fun p => p.1 = mid)
  let all_data := st.metadataFile.getD []
  { st with metadataFile := some (dupdate all_data data) }

/-- `ModelService._save_model_to_minio`: a no-op when the MinIO client is absent;
otherwise the upload either succeeds or the exception is logged **and re-raised**. -/
def ModelService.save_model_to_minio (env : MlEnv) : Except PyErr Unit :=
  if ¬ env.minioClientPresent then .ok ()
  else if env.minioUploadOk then .ok ()
  else .error .minioUploadError

/-- `ModelService.train_model`, with the freshly generated uuid passed explicitly.
Returns the state as mutated up to the point the call returned or raised. -/
def ModelService.train_model (env : MlEnv) (st : ModelServiceState) (model_id : String)
    (model_type : String) (dataset_id : String) (hyperparameters : Dict String)
    (X : List (List Rat)) (y : List Rat) : ModelServiceState × Except PyErr String :=
  if model_type ≠ "linear" ∧ model_type ≠ "random_forest" then
    (st, .error .invalidInput)
  else
    let metrics := env.trainMetrics X y
    let model_path := models_dir ++ "/" ++ model_id ++ ".pkl"
    let st1 := { st with artifactFiles := fsAdd st.artifactFiles model_path }
    let clearml_model_id := env.clearmlSaveModel
    match ModelService.save_model_to_minio env with
    | .error e => (st1, .error e)
    | .ok _ =>
      let clean := cleanMetrics metrics
      let record : ModelRecord :=
        { model_id := model_id
          model_type := model_type
          dataset_id := dataset_id
          hyperparameters := hyperparameters
          created_at := env.now
          status := "trained"
          model_path := model_path
          clearml_model_id := clearml_model_id
          metrics := if clean.isEmpty then none else some clean }
      let st2 := { st1 with models := dset st1.models model_id record }
      let st3 := ModelService.save_model_metadata st2 (some model_id)
      (st3, .ok model_id)

/-- `ModelService.get_model`. -/
def ModelService.get_model (st : ModelServiceState) (model_id : String) :
    Option ModelRecord :=
  dget st.models model_id

/-- Prediction input: an ordered matrix or a list of named-field records
(the tagged union behind the `isinstance` shape test). -/
inductive PyFeatures where
  | mat : List (List Rat) → PyFeatures
  | recs : List (Dict Rat) → PyFeatures

/-- `ModelService._convert_features_to_list`: a matrix passes through unchanged;
named-field records are projected onto the first record's key set sorted
lexicographically, missing keys defaulting to 0.0. -/
def ModelService.convert_features_to_list : PyFeatures → List (List Rat)
  | .mat X => X
  | .recs [] => []
  | .recs (r0 :: rest) =>
    let keys := (r0.map Prod.fst).mergeSort (fun a b => a ≤ b)
    (r0 :: rest).map (fun item => keys.map (fun k => (dget item k).getD 0))

/-- `ModelService.predict`: resolve the record, convert the features, and load the
estimator — from the ClearML artifact when the record has a ClearML model id and
the fetched path exists, else from the record's local path, else raise. -/
def ModelService.predict (env : MlEnv) (st : ModelServiceState) (model_id : String)
    (features : PyFeatures) : Except PyErr (List Rat) :=
  match dget st.models model_id with
  | none => .error .notFound
  | some info =>
    let X := ModelService.convert_features_to_list features
    if info.model_type ≠ "linear" ∧ info.model_type ≠ "random_forest" then
      .error .invalidInput
    else
      match info.clearml_model_id with
      | some cmid =>
        match env.clearmlLoadModel cmid model_id with
        | some p =>
          if p ≠ "" ∧ p ∈ st.artifactFiles then .ok (env.loadedPredict p X)
          else if info.model_path ≠ "" ∧ info.model_path ∈ st.artifactFiles then
            .ok (env.loadedPredict info.model_path X)
          else .error .notLoadable
        | none =>
          if info.model_path ≠ "" ∧ info.model_path ∈ st.artifactFiles then
            .ok (env.loadedPredict info.model_path X)
          else .error .notLoadable
      | none =>
        if info.model_path ≠ "" ∧ info.model_path ∈ st.artifactFiles then
          .ok (env.loadedPredict info.model_path X)
        else .error .notLoadable

/-- `ModelService.retrain_model`: look up the original record, default the
hyperparameters with Python's `hyperparameters or old["hyperparameters"]`
(so `None` **and** the empty dict both fall back), and delegate to `train_model`
with a fresh id. -/
def ModelService.retrain_model (env : MlEnv) (st : ModelServiceState)
    (new_model_id : String) (model_id : String) (dataset_id : String)
    (hyperparameters : Option (Dict String)) (X : List (List Rat)) (y : List Rat) :
    ModelServiceState × Except PyErr String :=
  match dget st.models model_id with
  | none => (st, .error .notFound)
  | some old =>
    let new_hyperparameters := match hyperparameters with
      | none => old.hyperparameters
      | some h => if h.isEmpty then old.hyperparameters else h
    ModelService.train_model env st new_model_id old.model_type dataset_id
      new_hyperparameters X y

/-- `ModelService.delete_model`: remove the artifact file and drop the in-memory
record; the metadata file is **not** rewritten. `false` when the id is unknown. -/
def ModelService.delete_model (st : ModelServiceState) (model_id : String) :
    ModelServiceState × Bool :=
  match dget st.models model_id with
  | none => (st, false)
  | some info =>
    let st1 :=
      if info.model_path ≠ "" then
        { st with artifactFiles := fsRemove st.artifactFiles info.model_path }
      else st
    let st2 := { st1 with models := ddel st1.models model_id }
    (st2, true)

/-- Concrete oracle environment: ClearML registration yields no id, no MinIO
client, the estimator reports no metrics and predicts the empty list. -/
def envTest : MlEnv :=
  { clearmlSaveModel := none
    minioClientPresent := false
    minioUploadOk := true
    clearmlLoadModel := fun _ _ => none
    trainMetrics := fun _ _ => []
    loadedPredict := fun _ _ => []
    now := 7 }

/-- `envTest` with a constructed MinIO client whose `put_object` call fails. -/
def envMinioFail : MlEnv :=
  { envTest with minioClientPresent := true, minioUploadOk := false }

/-- `envTest` with estimator metrics containing a NaN, an infinity, a `None`
and two finite values. -/
def envMetricsTest : MlEnv :=
  { envTest with trainMetrics := fun _ _ =>
      [("r2_score", some .nan), ("mae", some (.fin 1)), ("mse", some .inf),
       ("extra", none), ("rmse", some (.fin 2))] }

/-- A concrete trained-model record stored under id `"m1"`. -/
def recM1 : ModelRecord :=
  { model_id := "m1"
    model_type := "linear"
    dataset_id := "d1"
    hyperparameters := [("alpha", "1.0")]
    created_at := 3
    status := "trained"
    model_path := "models/m1.pkl"
    clearml_model_id := none
    metrics := none }

/-- A model-service state holding exactly `recM1`, with a metadata file that
matches the in-memory map and the artifact file on disk. -/
def stM1 : ModelServiceState :=
  { models := [("m1", recM1)]
    metadataFile := some [("m1", recM1)]
    artifactFiles := ["models/m1.pkl"] }

/-- A concrete dataset record stored under id `"d1"`. -/
def recD1 : DatasetRecord :=
  { dataset_id := "d1"
    file_name := "data.csv"
    filepath := "data/d1.csv"
    format := "csv"
    size := 2
    created_at := 1
    dvc_version := some "abcdef" }

/-- A dataset-service state holding exactly `recD1` with its backing file. -/
def stD1 : DatasetServiceState :=
  { datasets := [("d1", recD1)]
    metadataFile := some [("d1", recD1)]
    files := [("data/d1.csv", [48, 49])] }

/-- Dataset-service oracle: DVC snapshot yields no token, push and pull fail,
and `recD1`'s CSV file parses into a fixed 2×3 table. -/
def dsEnvTest : DsEnv :=
  { dvcVersion := none
    pushOk := false
    pullOk := false
    now := 5
    parse := fun format path =>
      if format = "csv" ∧ path = "data/d1.csv" then
        some { ncols := 3, rows := [[1, 2, 3], [4, 5, 6]] }
      else none }

/-- The record that training `"m2"` under `envMetricsTest` must store: only the
finite metrics survive. -/
def recM2clean : ModelRecord :=
  { model_id := "m2"
    model_type := "linear"
    dataset_id := "d1"
    hyperparameters := []
    created_at := 7
    status := "trained"
    model_path := "models/m2.pkl"
    clearml_model_id := none
    metrics := some [("mae", .fin 1), ("rmse", .fin 2)] }
@[simp] theorem dget_nil {α : Type} (k : String) : dget ([] : Dict α) k = none := rfl

@[simp] theorem dget_cons {α : Type} (k' : String) (v : α) (rest : Dict α) (k : String) :
    dget ((k', v) :: rest) k = if k' = k then some v else dget rest k := rfl

theorem dget_dset_same {α : Type} (d : Dict α) (k : String) (v : α) :
    dget (dset d k v) k = some v := by
  induction d with
  | nil => simp [dset, dget]
  | cons hd tl ih =>
    obtain ⟨k', v'⟩ := hd
    by_cases h : k' = k
    · simp [dset, h, dget]
    · simp [dset, h, dget, ih]

theorem dget_dset_other {α : Type} (d : Dict α) (k k₂ : String) (v : α) (hne : k ≠ k₂) :
    dget (dset d k v) k₂ = dget d k₂ := by
  induction d with
  | nil => simp [dset, dget, hne]
  | cons hd tl ih =>
    obtain ⟨k', v'⟩ := hd
    by_cases h : k' = k
    · subst h
      simp [dset, dget, hne]
    · simp [dset, h, dget, ih]

theorem dget_eq_none_of_not_mem_keys {α : Type} (d : Dict α) (k : String)
    (h : k ∉ d.map Prod.fst) : dget d k = none := by
  induction d with
  | nil => rfl
  | cons hd tl ih =>
    obtain ⟨k', v'⟩ := hd
    simp only [List.map_cons, List.mem_cons, not_or] at h
    simp [dget, Ne.symm h.1, ih h.2]

theorem dget_ddel_same {α : Type} (d : Dict α) (k : String)
    (hnd : (d.map Prod.fst).Nodup) : dget (ddel d k) k = none := by
  induction d with
  | nil => simp [ddel]
  | cons hd tl ih =>
    obtain ⟨k', v'⟩ := hd
    simp only [List.map_cons, List.nodup_cons] at hnd
    by_cases h : k' = k
    · subst h
      have hdel : ddel ((k', v') :: tl) k' = tl := by simp [ddel]
      rw [hdel]
      exact dget_eq_none_of_not_mem_keys tl k' hnd.1
    · simp [ddel, h, dget, ih hnd.2]

theorem dget_ddel_other {α : Type} (d : Dict α) (k k₂ : String) (hne : k ≠ k₂) :
    dget (ddel d k) k₂ = dget d k₂ := by
  induction d with
  | nil => simp [ddel]
  | cons hd tl ih =>
    obtain ⟨k', v'⟩ := hd
    by_cases h : k' = k
    · subst h
      simp [ddel, dget, hne]
    · simp [ddel, h, dget, ih]

@[simp] theorem mem_fsAdd (fs : Fs) (p q : String) :
    q ∈ fsAdd fs p ↔ q ∈ fs ∨ q = p := by
  by_cases h : p ∈ fs
  · simp only [fsAdd, if_pos h]
    constructor
    · exact Or.inl
    · rintro (hq | rfl)
      · exact hq
      · exact h
  · simp [fsAdd, if_neg h]

@[simp] theorem mem_fsRemove (fs : Fs) (p q : String) :
    q ∈ fsRemove fs p ↔ q ∈ fs ∧ q ≠ p := by
  simp [fsRemove]


theorem mergeSort_keys_eq (keys l : List String) (hs : keys.Sorted (· ≤ ·))
    (hp : keys.Perm l) : l.mergeSort (fun a b => a ≤ b) = keys := by
  apply List.eq_of_perm_of_sorted ((List.mergeSort_perm l _).trans hp.symm) ?_ hs
  have htrans : ∀ a b c : String, decide (a ≤ b) = true → decide (b ≤ c) = true →
      decide (a ≤ c) = true := by
    intro a b c hab hbc
    simp only [decide_eq_true_iff] at *
    exact le_trans hab hbc
  have htotal : ∀ a b : String, (decide (a ≤ b) || decide (b ≤ a)) = true := by
    intro a b
    simpa [Bool.or_eq_true, decide_eq_true_iff] using le_total a b
  have hsorted := List.sorted_mergeSort htrans htotal l
  simpa [List.Sorted, decide_eq_true_iff] using hsorted

theorem cleanMetrics_mem (m : Dict (Option PyFloat)) (k : String) (v : PyFloat) :
    (k, v) ∈ cleanMetrics m ↔ ((k, some v) ∈ m ∧ v.isFinite = true) := by
  induction m with
  | nil => simp [cleanMetrics]
  | cons hd tl ih =>
    obtain ⟨k', v'⟩ := hd
    cases v' with
    | none =>
      rw [cleanMetrics]
      simp only [List.mem_cons, ih]
      constructor
      · rintro ⟨hm, hf⟩
        exact ⟨Or.inr hm, hf⟩
      · rintro ⟨hm | hm, hf⟩
        · simp at hm
        · exact ⟨hm, hf⟩
    | some w =>
      rw [cleanMetrics]
      by_cases hw : w.isnan || w.isinf
      · rw [if_pos hw]
        simp only [List.mem_cons, ih]
        constructor
        · rintro ⟨hm, hf⟩
          exact ⟨Or.inr hm, hf⟩
        · rintro ⟨hm | hm, hf⟩
          · simp only [Prod.mk.injEq, Option.some.injEq] at hm
            obtain ⟨rfl, rfl⟩ := hm
            simp [PyFloat.isFinite] at hf
            rw [hf.1, hf.2] at hw
            simp at hw
          · exact ⟨hm, hf⟩
      · rw [if_neg hw]
        simp only [List.mem_cons, ih, Prod.mk.injEq, Option.some.injEq]
        constructor
        · rintro (⟨rfl, rfl⟩ | ⟨hm, hf⟩)
          · refine ⟨Or.inl ⟨rfl, rfl⟩, ?_⟩
            simp only [Bool.or_eq_true, not_or, Bool.not_eq_true] at hw
            simp [PyFloat.isFinite, hw.1, hw.2]
          · exact ⟨Or.inr hm, hf⟩
        · rintro ⟨⟨rfl, rfl⟩ | hm, hf⟩
          · exact Or.inl ⟨rfl, rfl⟩
          · exact Or.inr ⟨hm, hf⟩

theorem filter_dset_self {α : Type} (d : Dict α) (k : String) (v : α)
    (hnd : (d.map Prod.fst).Nodup) :
    (dset d k v).filter (fun p => p.1 = k) = [(k, v)] := by
  induction d with
  | nil => simp [dset]
  | cons hd tl ih =>
    obtain ⟨k', v'⟩ := hd
    simp only [List.map_cons, List.nodup_cons] at hnd
    by_cases h : k' = k
    · subst h
      have htl : tl.filter (fun p => p.1 = k') = [] := by
        rw [List.filter_eq_nil_iff]
        rintro ⟨k2, v2⟩ hm
        simp only [decide_eq_true_iff]
        intro hk
        subst hk
        exact hnd.1 (List.mem_map.mpr ⟨(k2, v2), hm, rfl⟩)
      simp [dset, List.filter, htl]
    · simp only [dset, if_neg h]
      rw [List.filter_cons_of_neg (by simp [h])]
      exact ih hnd.2

theorem predict_congr_features (env : MlEnv) (st : ModelServiceState)
    (model_id : String) (f₁ f₂ : PyFeatures)
    (h : ModelService.convert_features_to_list f₁ = ModelService.convert_features_to_list f₂) :
    ModelService.predict env st model_id f₁ = ModelService.predict env st model_id f₂ := by
  unfold ModelService.predict
  rw [h]

theorem train_model_success (env : MlEnv) (st : ModelServiceState)
    (model_id model_type dataset_id : String) (hp : Dict String)
    (X : List (List Rat)) (y : List Rat) (st2 : ModelServiceState) (r : String)
    (h : ModelService.train_model env st model_id model_type dataset_id hp X y = (st2, .ok r)) :
    r = model_id ∧
    st2.models = dset st.models model_id
      { model_id := model_id
        model_type := model_type
        dataset_id := dataset_id
        hyperparameters := hp
        created_at := env.now
        status := "trained"
        model_path := models_dir ++ "/" ++ model_id ++ ".pkl"
        clearml_model_id := env.clearmlSaveModel
        metrics := if (cleanMetrics (env.trainMetrics X y)).isEmpty then none
                   else some (cleanMetrics (env.trainMetrics X y)) } ∧
    st2.metadataFile = some (dupdate (st.metadataFile.getD [])
      ((dset st.models model_id
        { model_id := model_id
          model_type := model_type
          dataset_id := dataset_id
          hyperparameters := hp
          created_at := env.now
          status := "trained"
          model_path := models_dir ++ "/" ++ model_id ++ ".pkl"
          clearml_model_id := env.clearmlSaveModel
          metrics := if (cleanMetrics (env.trainMetrics X y)).isEmpty then none
                     else some (cleanMetrics (env.trainMetrics X y)) }).filter
        (fun p => p.1 = model_id))) ∧
    st2.artifactFiles = fsAdd st.artifactFiles (models_dir ++ "/" ++ model_id ++ ".pkl") := by
  rw [ModelService.train_model] at h
  by_cases htype : model_type ≠ "linear" ∧ model_type ≠ "random_forest"
  · rw [if_pos htype] at h
    exact absurd (congrArg Prod.snd h) (by simp)
  · rw [if_neg htype] at h
    rcases hminio : ModelService.save_model_to_minio env with e | u
    · rw [hminio] at h
      exact absurd (congrArg Prod.snd h) (by simp)
    · rw [hminio] at h
      simp only [ModelService.save_model_metadata, Prod.mk.injEq, Except.ok.injEq] at h
      obtain ⟨hst, hr⟩ := h
      subst hst
      refine ⟨hr.symm, rfl, rfl, rfl⟩

/-- C3: for every model-kind tag outside {linear, random_forest}, `train_model`
fails with an invalid-input condition and leaves the in-memory model map exactly
as it was before the call. -/
theorem train_unsupported_kind_invalid_input (env : MlEnv) (st : ModelServiceState)
    (model_id model_type dataset_id : String) (hp : Dict String)
    (X : List (List Rat)) (y : List Rat)
    (h1 : model_type ≠ "linear") (h2 : model_type ≠ "random_forest") :
    (ModelService.train_model env st model_id model_type dataset_id hp X y).2
        = .error .invalidInput ∧
    (ModelService.train_model env st model_id model_type dataset_id hp X y).1.models
        = st.models := by
  rw [ModelService.train_model, if_pos ⟨h1, h2⟩]
  exact ⟨rfl, rfl⟩

/-- Witness for C3 at the concrete unsupported kind `"boosting"`. -/
theorem train_unsupported_kind_invalid_input_witness :
    (ModelService.train_model envTest stM1 "m2" "boosting" "d1" [] [] []).2
        = .error .invalidInput ∧
    (ModelService.train_model envTest stM1 "m2" "boosting" "d1" [] [] []).1.models
        = stM1.models :=
  train_unsupported_kind_invalid_input envTest stM1 "m2" "boosting" "d1" [] [] []
    (by decide) (by decide)

/-- C10: `retrain_model` with an explicitly empty hyperparameter dict is
indistinguishable from `retrain_model` with no hyperparameters at all
(Python's `hyperparameters or old["hyperparameters"]` treats `{}` as absent). -/
theorem retrain_empty_hyperparameters_same_as_none (env : MlEnv) (st : ModelServiceState)
    (new_model_id model_id dataset_id : String) (X : List (List Rat)) (y : List Rat) :
    ModelService.retrain_model env st new_model_id model_id dataset_id (some []) X y
      = ModelService.retrain_model env st new_model_id model_id dataset_id none X y := by
  rw [ModelService.retrain_model, ModelService.retrain_model]
  cases dget st.models model_id <;> simp [List.isEmpty]

/-- C5: predicting on named-field records equals predicting on the matrix obtained
by projecting every record onto the first record's key set in lexicographically
sorted order, missing keys defaulting to 0.0. -/
theorem predict_records_matrix_equiv (env : MlEnv) (st : ModelServiceState)
    (model_id : String) (r0 : Dict Rat) (rest : List (Dict Rat)) (keys : List String)
    (hsorted : keys.Sorted (· ≤ ·)) (hperm : keys.Perm (r0.map Prod.fst)) :
    ModelService.predict env st model_id (.recs (r0 :: rest)) =
      ModelService.predict env st model_id
        (.mat ((r0 :: rest).map (fun item => keys.map (fun k => (dget item k).getD 0)))) := by
  apply predict_congr_features
  rw [ModelService.convert_features_to_list, ModelService.convert_features_to_list]
  rw [mergeSort_keys_eq keys (r0.map Prod.fst) hsorted hperm]

/-- Witness for C5: a one-record feature set with the single key `"a"`. -/
theorem predict_records_matrix_equiv_witness :
    List.Sorted (· ≤ ·) ["a"] ∧ List.Perm ["a"] ([("a", (2 : Rat))].map Prod.fst) ∧
    ModelService.predict envTest stM1 "m1" (.recs [[("a", 2)]]) =
      ModelService.predict envTest stM1 "m1"
        (.mat ([[("a", (2 : Rat))]].map (fun item => ["a"].map (fun k => (dget item k).getD 0)))) :=
  ⟨List.sorted_singleton "a", List.Perm.refl _,
    predict_records_matrix_equiv envTest stM1 "m1" [("a", 2)] [] ["a"]
      (List.sorted_singleton "a") (List.Perm.refl _)⟩

/-- C8: `upload_dataset` creates the record, persists metadata and returns the id
for **every** oracle outcome of the DVC snapshot and push steps; in particular a
failed snapshot is recorded as an absent version token and a failed push changes
nothing (its result is discarded). -/
theorem upload_dataset_creates_record (env : DsEnv) (st : DatasetServiceState)
    (dataset_id file_name : String) (content : List Nat) (format : String) :
    (DatasetService.upload_dataset env st dataset_id file_name content format).2
        = dataset_id ∧
    dget (DatasetService.upload_dataset env st dataset_id file_name content format).1.datasets
        dataset_id =
      some { dataset_id := dataset_id
             file_name := file_name
             filepath := datasets_dir ++ "/" ++ dataset_id ++ "." ++ format
             format := format
             size := content.length
             created_at := env.now
             dvc_version := env.dvcVersion } ∧
    (DatasetService.upload_dataset env st dataset_id file_name content format).1.metadataFile
      = some (DatasetService.upload_dataset env st dataset_id file_name content format).1.datasets := by
  refine ⟨rfl, ?_, rfl⟩
  rw [DatasetService.upload_dataset]
  exact dget_dset_same st.datasets dataset_id _

theorem retrain_model_eq_train (env : MlEnv) (st : ModelServiceState)
    (new_model_id model_id dataset_id : String) (hp : Option (Dict String))
    (X : List (List Rat)) (y : List Rat) (old : ModelRecord)
    (hold : dget st.models model_id = some old) :
    ModelService.retrain_model env st new_model_id model_id dataset_id hp X y
      = ModelService.train_model env st new_model_id old.model_type dataset_id
          (hp.elim old.hyperparameters
            (fun h => if h.isEmpty then old.hyperparameters else h)) X y := by
  rw [ModelService.retrain_model, hold]
  cases hp <;> rfl

/-- C4: when `retrain_model` on an existing id succeeds and the freshly allocated
id is distinct from the original one, the original record is returned unchanged
by `get_model`, and the new id maps to a distinct new record. -/
theorem retrain_preserves_original_record (env : MlEnv) (st : ModelServiceState)
    (new_model_id model_id dataset_id : String) (hp : Option (Dict String))
    (X : List (List Rat)) (y : List Rat) (old : ModelRecord)
    (hold : dget st.models model_id = some old)
    (hid : old.model_id = model_id)
    (hfresh : new_model_id ≠ model_id)
    (hsucc : (ModelService.retrain_model env st new_model_id model_id dataset_id hp X y).2
        = .ok new_model_id) :
    ModelService.get_model
        (ModelService.retrain_model env st new_model_id model_id dataset_id hp X y).1 model_id
      = some old ∧
    ∃ rec, ModelService.get_model
        (ModelService.retrain_model env st new_model_id model_id dataset_id hp X y).1
        new_model_id = some rec ∧ rec.model_id = new_model_id ∧ rec ≠ old := by
  rw [retrain_model_eq_train env st new_model_id model_id dataset_id hp X y old hold]
    at hsucc ⊢
  rcases hT : ModelService.train_model env st new_model_id old.model_type dataset_id
      (hp.elim old.hyperparameters
        (fun h => if h.isEmpty then old.hyperparameters else h)) X y with ⟨st2, res⟩
  rw [hT] at hsucc
  simp only at hsucc
  subst hsucc
  obtain ⟨hr, hmodels, hfile, hfs⟩ := train_model_success env st new_model_id old.model_type
    dataset_id _ X y st2 new_model_id hT
  constructor
  · show dget st2.models model_id = some old
    rw [hmodels, dget_dset_other _ _ _ _ hfresh, hold]
  · have hget : dget st2.models new_model_id = some
        { model_id := new_model_id
          model_type := old.model_type
          dataset_id := dataset_id
          hyperparameters := hp.elim old.hyperparameters
            (fun h => if h.isEmpty then old.hyperparameters else h)
          created_at := env.now
          status := "trained"
          model_path := models_dir ++ "/" ++ new_model_id ++ ".pkl"
          clearml_model_id := env.clearmlSaveModel
          metrics := if (cleanMetrics (env.trainMetrics X y)).isEmpty then none
                     else some (cleanMetrics (env.trainMetrics X y)) } := by
      rw [hmodels]
      exact dget_dset_same _ new_model_id _
    refine ⟨_, hget, rfl, ?_⟩
    intro hcontra
    exact hfresh (by rw [← hid]; exact congrArg ModelRecord.model_id hcontra)

/-- Witness for C4: retraining `"m1"` in `stM1` as `"m2"`. -/
theorem retrain_preserves_original_record_witness :
    ModelService.get_model
        (ModelService.retrain_model envTest stM1 "m2" "m1" "d1" none [] []).1 "m1"
      = some recM1 ∧
    ∃ rec, ModelService.get_model
        (ModelService.retrain_model envTest stM1 "m2" "m1" "d1" none [] []).1 "m2"
      = some rec ∧ rec.model_id = "m2" ∧ rec ≠ recM1 :=
  retrain_preserves_original_record envTest stM1 "m2" "m1" "d1" none [] [] recM1
    (by decide) rfl (by decide) (by rfl)

/-- C7: after a successful `train_model`, the stored record's metric mapping
contains only finite values: a metric is kept (with its value unchanged) iff the
estimator reported it with a value that is neither `None` nor NaN nor infinite. -/
theorem train_metrics_filtered (env : MlEnv) (st : ModelServiceState)
    (model_id model_type dataset_id : String) (hp : Dict String)
    (X : List (List Rat)) (y : List Rat) (st2 : ModelServiceState) (r : String)
    (rec : ModelRecord)
    (hrun : ModelService.train_model env st model_id model_type dataset_id hp X y
        = (st2, .ok r))
    (hrec : dget st2.models model_id = some rec) :
    (∀ k v, (k, v) ∈ rec.metrics.getD [] → v.isFinite = true) ∧
    (∀ k v, (k, v) ∈ rec.metrics.getD [] ↔
      ((k, some v) ∈ env.trainMetrics X y ∧ v.isFinite = true)) := by
  obtain ⟨hr, hmodels, hfile, hfs⟩ := train_model_success env st model_id model_type
    dataset_id hp X y st2 r hrun
  rw [hmodels, dget_dset_same] at hrec
  simp only [Option.some.injEq] at hrec
  subst hrec
  simp only
  by_cases hemp : (cleanMetrics (env.trainMetrics X y)).isEmpty
  · rw [if_pos hemp]
    rw [List.isEmpty_iff] at hemp
    refine ⟨by simp, ?_⟩
    intro k v
    simp only [Option.getD_none, List.not_mem_nil, false_iff, not_and]
    intro hm hf
    have hmem := (cleanMetrics_mem (env.trainMetrics X y) k v).mpr ⟨hm, hf⟩
    rw [hemp] at hmem
    exact absurd hmem (List.not_mem_nil _)
  · rw [if_neg hemp]
    refine ⟨?_, ?_⟩
    · intro k v hm
      exact ((cleanMetrics_mem (env.trainMetrics X y) k v).mp hm).2
    · intro k v
      exact cleanMetrics_mem (env.trainMetrics X y) k v

/-- Witness for C7: training with metrics {NaN, 1, ∞, None, 2} keeps exactly the
two finite entries. -/
theorem train_metrics_filtered_witness :
    (∀ k v, (k, v) ∈ recM2clean.metrics.getD [] → v.isFinite = true) ∧
    (∀ k v, (k, v) ∈ recM2clean.metrics.getD [] ↔
      ((k, some v) ∈ envMetricsTest.trainMetrics [] [] ∧ v.isFinite = true)) :=
  train_metrics_filtered envMetricsTest stM1 "m2" "linear" "d1" [] [] []
    (ModelService.train_model envMetricsTest stM1 "m2" "linear" "d1" [] [] []).1 "m2"
    recM2clean (by rfl) (by rfl)

/-- C6: `load_dataset` fails with not-found on an unknown id; on a known id whose
locally present file parses into a table with fewer than two columns it fails
with invalid-input; with `n ≥ 2` columns it returns every row minus its last
entry (an m×(n−1) matrix) as features and the last column as the target. -/
theorem load_dataset_spec (env : DsEnv) (st : DatasetServiceState) (dataset_id : String) :
    (dget st.datasets dataset_id = none →
      DatasetService.load_dataset env st dataset_id = .error .notFound) ∧
    (∀ info df, dget st.datasets dataset_id = some info →
      (dget st.files info.filepath).isSome →
      (info.format = "csv" ∨ info.format = "json") →
      env.parse info.format info.filepath = some df →
      ((df.ncols < 2 →
          DatasetService.load_dataset env st dataset_id = .error .invalidInput) ∧
       (2 ≤ df.ncols → (∀ row ∈ df.rows, row.length = df.ncols) →
          DatasetService.load_dataset env st dataset_id
            = .ok (df.rows.map List.dropLast,
                   df.rows.map (fun row => row.getLast?.getD 0)) ∧
          ∀ xrow ∈ df.rows.map List.dropLast, xrow.length = df.ncols - 1))) := by
  constructor
  · intro h
    rw [DatasetService.load_dataset, h]
  · intro info df hinfo hfile hfmt hparse
    have hnone : ¬ ((dget st.files info.filepath).isNone = true ∧ ¬ env.pullOk = true) := by
      rintro ⟨hn, _⟩
      rw [Option.isNone_iff_eq_none] at hn
      rw [hn] at hfile
      simp at hfile
    have hfmt2 : ¬ (info.format ≠ "csv" ∧ info.format ≠ "json") := by
      rintro ⟨h1, h2⟩
      cases hfmt with
      | inl h => exact h1 h
      | inr h => exact h2 h
    constructor
    · intro hlt
      simp only [DatasetService.load_dataset, hinfo]
      rw [if_neg hnone, if_neg hfmt2]
      simp only [hparse]
      rw [if_pos hlt]
    · intro hge hrect
      constructor
      · simp only [DatasetService.load_dataset, hinfo]
        rw [if_neg hnone, if_neg hfmt2]
        simp only [hparse]
        rw [if_neg (not_lt.mpr hge)]
        simp only [Except.ok.injEq, Prod.mk.injEq]
        constructor
        · apply List.map_congr_left
          intro row hrow
          rw [List.dropLast_eq_take, hrect row hrow]
        · apply List.map_congr_left
          intro row hrow
          rw [List.getD_eq_getElem?_getD, List.getLast?_eq_getElem?, hrect row hrow]
      · intro xrow hx
        rw [List.mem_map] at hx
        obtain ⟨row, hrow, rfl⟩ := hx
        rw [List.length_dropLast, hrect row hrow]

/-- Witness for C6: loading `recD1`'s 2×3 CSV table from `stD1` yields the 2×2
feature matrix and the 2-vector last column. -/
theorem load_dataset_spec_witness :
    DatasetService.load_dataset dsEnvTest stD1 "d1"
      = .ok ([[(1 : Rat), 2], [4, 5]], [(3 : Rat), 6]) := by
  have h := (((load_dataset_spec dsEnvTest stD1 "d1").2 recD1
      { ncols := 3, rows := [[1, 2, 3], [4, 5, 6]] }
      (by rfl) (by rfl) (Or.inl rfl) (by rfl)).2 (by decide) (by decide)).1
  rw [h]
  rfl

/-- C9: `predict` fails with not-found on an unknown model id; on a known record
with a ClearML artifact reference it uses the tracker-fetched file first, falls
back to the record's local path when the tracker yields no loadable file, and
fails as not-loadable only when neither file exists; without a tracker reference
it loads the local path or fails when that path does not exist. -/
theorem predict_loading_fallback (env : MlEnv) (st : ModelServiceState)
    (model_id : String) (features : PyFeatures) :
    (dget st.models model_id = none →
      ModelService.predict env st model_id features = .error .notFound) ∧
    (∀ info, dget st.models model_id = some info →
      (info.model_type = "linear" ∨ info.model_type = "random_forest") →
      ((∀ cmid, info.clearml_model_id = some cmid →
          ((∀ p, env.clearmlLoadModel cmid model_id = some p → p ≠ "" →
              p ∈ st.artifactFiles →
              ModelService.predict env st model_id features
                = .ok (env.loadedPredict p (ModelService.convert_features_to_list features))) ∧
           ((∀ p, env.clearmlLoadModel cmid model_id = some p →
                ¬(p ≠ "" ∧ p ∈ st.artifactFiles)) →
              ((info.model_path ≠ "" → info.model_path ∈ st.artifactFiles →
                  ModelService.predict env st model_id features
                    = .ok (env.loadedPredict info.model_path
                        (ModelService.convert_features_to_list features))) ∧
               (¬(info.model_path ≠ "" ∧ info.model_path ∈ st.artifactFiles) →
                  ModelService.predict env st model_id features
                    = .error .notLoadable))))) ∧
       (info.clearml_model_id = none →
          ((info.model_path ≠ "" → info.model_path ∈ st.artifactFiles →
              ModelService.predict env st model_id features
                = .ok (env.loadedPredict info.model_path
                    (ModelService.convert_features_to_list features))) ∧
           (¬(info.model_path ≠ "" ∧ info.model_path ∈ st.artifactFiles) →
              ModelService.predict env st model_id features = .error .notLoadable))))) := by
  constructor
  · intro h
    rw [ModelService.predict, h]
  · intro info hinfo htype
    have htype2 : ¬(info.model_type ≠ "linear" ∧ info.model_type ≠ "random_forest") := by
      rintro ⟨h1, h2⟩
      cases htype with
      | inl h => exact h1 h
      | inr h => exact h2 h
    constructor
    · intro cmid hcm
      constructor
      · intro p hp hpne hpmem
        simp only [ModelService.predict, hinfo]
        rw [if_neg htype2]
        simp only [hcm, hp]
        rw [if_pos ⟨hpne, hpmem⟩]
      · intro htf
        constructor
        · intro hmp hmem
          simp only [ModelService.predict, hinfo]
          rw [if_neg htype2]
          simp only [hcm]
          rcases hcl : env.clearmlLoadModel cmid model_id with _ | p
          · simp only [hcl]
            rw [if_pos ⟨hmp, hmem⟩]
          · simp only [hcl]
            rw [if_neg (htf p hcl), if_pos ⟨hmp, hmem⟩]
        · intro hnl
          simp only [ModelService.predict, hinfo]
          rw [if_neg htype2]
          simp only [hcm]
          rcases hcl : env.clearmlLoadModel cmid model_id with _ | p
          · simp only [hcl]
            rw [if_neg hnl]
          · simp only [hcl]
            rw [if_neg (htf p hcl), if_neg hnl]
    · intro hcm
      constructor
      · intro hmp hmem
        simp only [ModelService.predict, hinfo]
        rw [if_neg htype2]
        simp only [hcm]
        rw [if_pos ⟨hmp, hmem⟩]
      · intro hnl
        simp only [ModelService.predict, hinfo]
        rw [if_neg htype2]
        simp only [hcm]
        rw [if_neg hnl]

/-- Witness for C9: in `stM1` the record has no tracker reference and its local
artifact exists, so `predict` loads locally; an unknown id is not-found. -/
theorem predict_loading_fallback_witness :
    ModelService.predict envTest stM1 "m1" (.mat [[1]])
      = .ok (envTest.loadedPredict "models/m1.pkl"
          (ModelService.convert_features_to_list (.mat [[1]]))) ∧
    ModelService.predict envTest stM1 "m9" (.mat [[1]]) = .error .notFound := by
  constructor
  · exact (((predict_loading_fallback envTest stM1 "m1" (.mat [[1]])).2 recM1 (by decide)
      (Or.inl rfl)).2 rfl).1 (by decide) (by decide)
  · exact (predict_loading_fallback envTest stM1 "m9" (.mat [[1]])).1 (by decide)

/-- C1 counterexample: deleting model `"m1"` from `stM1` returns found=true and
removes the in-memory record and artifact, yet the metadata file still contains
the record — `delete_model` never writes the metadata file. -/
theorem model_delete_leaves_stale_metadata_cex :
    (ModelService.delete_model stM1 "m1").2 = true ∧
    dget (ModelService.delete_model stM1 "m1").1.models "m1" = none ∧
    dget ((ModelService.delete_model stM1 "m1").1.metadataFile.getD []) "m1" = some recM1 ∧
    (ModelService.delete_model stM1 "m1").1.metadataFile
      ≠ some (ModelService.delete_model stM1 "m1").1.models := by
  refine ⟨rfl, rfl, rfl, ?_⟩
  decide

/-- C1 (amended): dataset upload and dataset delete rewrite the metadata file
from the post-mutation in-memory map (a deleted dataset record is absent from
both), and a successful model train merges the new record into the file (fully
agreeing with the map whenever file and map agreed beforehand); but model delete
does not write the metadata file at all — it is left exactly as before, so the
deleted model record remains in the file. -/
theorem registry_mutation_persistence :
    (∀ env st dataset_id file_name content format,
      (DatasetService.upload_dataset env st dataset_id file_name content format).1.metadataFile
        = some (DatasetService.upload_dataset env st dataset_id
            file_name content format).1.datasets) ∧
    (∀ st dataset_id, (DatasetService.delete_dataset st dataset_id).2 = true →
      (DatasetService.delete_dataset st dataset_id).1.metadataFile
        = some (DatasetService.delete_dataset st dataset_id).1.datasets ∧
      ((st.datasets.map Prod.fst).Nodup →
        dget (DatasetService.delete_dataset st dataset_id).1.datasets dataset_id = none)) ∧
    (∀ env st model_id model_type dataset_id hp X y st2 r,
      (st.models.map Prod.fst).Nodup →
      ModelService.train_model env st model_id model_type dataset_id hp X y = (st2, .ok r) →
      (dget st2.models model_id).isSome = true ∧
      (st.metadataFile = some st.models → st2.metadataFile = some st2.models)) ∧
    (∀ st model_id, (ModelService.delete_model st model_id).2 = true →
      (ModelService.delete_model st model_id).1.metadataFile = st.metadataFile) := by
  refine ⟨?_, ?_, ?_, ?_⟩
  · intro env st dataset_id file_name content format
    rfl
  · intro st dataset_id hfound
    rcases hd : dget st.datasets dataset_id with _ | info
    · simp only [DatasetService.delete_dataset, hd] at hfound
      exact absurd hfound (by simp)
    · constructor
      · simp only [DatasetService.delete_dataset, hd]
        rfl
      · intro hnd
        simp only [DatasetService.delete_dataset, hd]
        exact dget_ddel_same st.datasets dataset_id hnd
  · intro env st model_id model_type dataset_id hp X y st2 r hnd hrun
    obtain ⟨hr, hmodels, hfile, hfs⟩ := train_model_success env st model_id model_type
      dataset_id hp X y st2 r hrun
    constructor
    · rw [hmodels, dget_dset_same]
      rfl
    · intro hpre
      rw [hfile, hmodels, hpre]
      simp only [Option.getD_some]
      rw [filter_dset_self st.models model_id _ hnd]
      rfl
  · intro st model_id hfound
    rcases hd : dget st.models model_id with _ | info
    · simp only [ModelService.delete_model, hd] at hfound
      exact absurd hfound (by simp)
    · simp only [ModelService.delete_model, hd]
      split <;> rfl

/-- Witness for the amended C1 at concrete states: dataset delete rewrites the
file, train persists the new record, model delete leaves the file untouched. -/
theorem registry_mutation_persistence_witness :
    (DatasetService.delete_dataset stD1 "d1").1.metadataFile
      = some (DatasetService.delete_dataset stD1 "d1").1.datasets ∧
    (ModelService.train_model envTest stM1 "m2" "linear" "d1" [] [] []).1.metadataFile
      = some (ModelService.train_model envTest stM1 "m2" "linear" "d1" [] [] []).1.models ∧
    (ModelService.delete_model stM1 "m1").1.metadataFile = stM1.metadataFile := by
  refine ⟨?_, ?_, ?_⟩
  · exact (registry_mutation_persistence.2.1 stD1 "d1" (by rfl)).1
  · exact (registry_mutation_persistence.2.2.1 envTest stM1 "m2" "linear" "d1" [] [] []
      (ModelService.train_model envTest stM1 "m2" "linear" "d1" [] [] []).1 "m2"
      (by decide) (by rfl)).2 rfl
  · exact registry_mutation_persistence.2.2.2 stM1 "m1" (by rfl)

/-- C2 counterexample: with a constructed MinIO client whose upload fails,
`train_model` propagates the error instead of returning an id: no record is
stored and no metadata is written. -/
theorem train_minio_failure_raises_cex :
    (ModelService.train_model envMinioFail stM1 "m2" "linear" "d1" [] [] []).2
      = .error .minioUploadError ∧
    dget (ModelService.train_model envMinioFail stM1 "m2" "linear" "d1" [] [] []).1.models
      "m2" = none ∧
    (ModelService.train_model envMinioFail stM1 "m2" "linear" "d1" [] [] []).1.metadataFile
      = stM1.metadataFile :=
  ⟨rfl, rfl, rfl⟩

/-- C2 (amended): when no MinIO client was constructed the upload step is a
skipped no-op (and a ClearML failure is separately swallowed as an absent
tracker id), but when the client exists and the upload fails the exception is
logged **and re-raised**: `train_model` aborts after writing the artifact file,
stores no record, persists no metadata and returns no id. -/
theorem train_minio_failure_behavior (env : MlEnv) (st : ModelServiceState)
    (model_id model_type dataset_id : String) (hp : Dict String)
    (X : List (List Rat)) (y : List Rat)
    (hsupp : model_type = "linear" ∨ model_type = "random_forest")
    (hcli : env.minioClientPresent = true) (hfail : env.minioUploadOk = false) :
    ModelService.train_model env st model_id model_type dataset_id hp X y
      = ({ st with artifactFiles := (fsAdd st.artifactFiles (models_dir ++ "/" ++ model_id ++ ".pkl")) },
         .error .minioUploadError) := by
  have htype2 : ¬(model_type ≠ "linear" ∧ model_type ≠ "random_forest") := by
    rintro ⟨h1, h2⟩
    cases hsupp with
    | inl h => exact h1 h
    | inr h => exact h2 h
  rw [ModelService.train_model, if_neg htype2]
  have hm : ModelService.save_model_to_minio env = .error .minioUploadError := by
    rw [ModelService.save_model_to_minio, hcli]
    simp [hfail]
  simp only [hm]

/-- Witness for the amended C2 at a concrete failing-upload environment. -/
theorem train_minio_failure_behavior_witness :
    ModelService.train_model envMinioFail stM1 "m9" "random_forest" "d1" [] [] []
      = ({ stM1 with artifactFiles := (fsAdd stM1.artifactFiles (models_dir ++ "/" ++ "m9" ++ ".pkl")) },
         .error .minioUploadError) :=
  train_minio_failure_behavior envMinioFail stM1 "m9" "random_forest" "d1" [] [] []
    (Or.inr rfl) rfl rfl
